import Mathlib

/-!
Verification development for the library-catalog manager (`src/main.cpp`).

The in-memory `LibraryManager` state machine is shallowly embedded: the three
`std::vector` collections become Lean lists, each mutating member function
becomes a function `LibraryManager → ... → Bool × LibraryManager` returning
the C++ `bool` result together with the post-state, and in-place pointer
mutation of the first matching element (`FindBook` + `MarkAsLoaned` /
`MarkAsAvailable`) becomes a first-match list update.  The wall clock
(`now_iso()`) is passed in as an explicit timestamp string.  JSON persistence
is embedded at the level of parsed JSON values: a successfully parsed array
document is the list of its element values, and the nlohmann exception paths
of `Load` become a three-way file-read outcome (missing / parsed / corrupt).
-/

namespace LibraryApp

/-- `struct Book` from `src/main.cpp`. -/
structure Book where
  Title : String
  Author : String
  ISBN : String
  IsAvailable : Bool
deriving DecidableEq

/-- `struct Reader` from `src/main.cpp`. -/
structure Reader where
  Id : Int
  Name : String
  Email : String
deriving DecidableEq

/-- `struct Loan` from `src/main.cpp`; `ReturnDate` is `std::optional`. -/
structure Loan where
  BookISBN : String
  ReaderId : Int
  LoanDate : String
  ReturnDate : Option String
deriving DecidableEq

/-- The three collections owned by `class LibraryManager`. -/
structure LibraryManager where
  Books : List Book
  Readers : List Reader
  Loans : List Loan
deriving DecidableEq

/-- Replace the first element satisfying `p` by its image under `f`; the
embedding of taking a pointer/iterator to the first match and mutating it
in place. -/
def updFirst (p : α → Bool) (f : α → α) : List α → List α
  | [] => []
  | x :: xs => if p x then f x :: xs else x :: updFirst p f xs

/-- `LibraryManager::FindBook`: first book whose `ISBN` equals `isbn`. -/
def FindBook (st : LibraryManager) (isbn : String) : Option Book :=
  st.Books.find? (fun b => b.ISBN == isbn)

/-- `LibraryManager::FindReader`: first reader whose `Id` equals `id`. -/
def FindReader (st : LibraryManager) (id : Int) : Option Reader :=
  st.Readers.find? (fun r => r.Id == id)

/-- Set the `IsAvailable` flag of the first book with the given ISBN (no-op
when no book matches); the embedding of `FindBook` returning a pointer that
`MarkAsLoaned` / `MarkAsAvailable` mutate. -/
def markFirstBook (isbn : String) (v : Bool) (bs : List Book) : List Book :=
  updFirst (fun b => b.ISBN == isbn) (fun b => { b with IsAvailable := v }) bs

/-- `LibraryManager::AddBook`. -/
def AddBook (st : LibraryManager) (b : Book) : Bool × LibraryManager :=
  match FindBook st b.ISBN with
  | some _ => (false, st)
  | none => (true, { st with Books := st.Books ++ [b] })

/-- `LibraryManager::RemoveBook`. -/
def RemoveBook (st : LibraryManager) (isbn : String) : Bool × LibraryManager :=
  match FindBook st isbn with
  | none => (false, st)
  | some b =>
    if !b.IsAvailable then (false, st)
    else (true, { st with Books := st.Books.eraseP (fun x => x.ISBN == isbn) })

/-- `LibraryManager::NextReaderId`: `1 + max` over existing reader Ids,
starting the running maximum at `0`. -/
def NextReaderId (st : LibraryManager) : Int :=
  (st.Readers.foldl (fun m r => if r.Id > m then r.Id else m) 0) + 1

/-- `LibraryManager::AddReader`. -/
def AddReader (st : LibraryManager) (r : Reader) : Bool × LibraryManager :=
  if st.Readers.any (fun x => x.Id == r.Id) then (false, st)
  else (true, { st with Readers := st.Readers ++ [r] })

/-- `LibraryManager::RemoveReader`: erase every active loan of the reader,
then erase the (first) reader with that Id. -/
def RemoveReader (st : LibraryManager) (id : Int) : Bool × LibraryManager :=
  match FindReader st id with
  | none => (false, st)
  | some _ =>
    (true, { st with
      Loans := st.Loans.filter (fun l => !(l.ReaderId == id && l.ReturnDate.isNone)),
      Readers := st.Readers.eraseP (fun r => r.Id == id) })

/-- `LibraryManager::IssueLoan`; `now` is the string `now_iso()` returns. -/
def IssueLoan (st : LibraryManager) (now : String) (isbn : String) (readerId : Int) :
    Bool × LibraryManager :=
  match FindBook st isbn with
  | none => (false, st)
  | some b =>
    if !b.IsAvailable then (false, st)
    else if (FindReader st readerId).isNone then (false, st)
    else (true, { st with
      Loans := st.Loans ++ [{ BookISBN := isbn, ReaderId := readerId,
                              LoanDate := now, ReturnDate := none }],
      Books := markFirstBook isbn false st.Books })

/-- `LibraryManager::ReturnBook`; `now` is the string `now_iso()` returns.
The first active loan matching both keys gets its `ReturnDate` set; the
availability flip is skipped when no book with the ISBN exists
(`markFirstBook` is then the identity). -/
def ReturnBook (st : LibraryManager) (now : String) (isbn : String) (readerId : Int) :
    Bool × LibraryManager :=
  match st.Loans.find? (fun l => l.BookISBN == isbn && l.ReaderId == readerId
                                  && l.ReturnDate.isNone) with
  | none => (false, st)
  | some _ =>
    (true, { st with
      Loans := updFirst
        (fun l => l.BookISBN == isbn && l.ReaderId == readerId && l.ReturnDate.isNone)
        (fun l => { l with ReturnDate := some now }) st.Loans,
      Books := markFirstBook isbn true st.Books })

/-- Parsed JSON values, as produced by the JSON collaborator.  A parsed array
document is represented directly as the Lean list of its element values, so no
array constructor is needed here. -/
inductive Json where
  | null : Json
  | bool : Bool → Json
  | int : Int → Json
  | str : String → Json
  | obj : List (String × Json) → Json

/-- Key lookup in a JSON object (`j["k"]` / `j.value("k", d)` access). -/
def Json.lookupKey (j : Json) (k : String) : Option Json :=
  match j with
  | Json.obj kvs => kvs.lookup k
  | _ => none

/-- nlohmann `j.value(k, d)` for a string field: the default when the key is
missing. -/
def jStr (j : Json) (k : String) (d : String) : String :=
  match j.lookupKey k with
  | some (Json.str s) => s
  | _ => d

/-- nlohmann `j.value(k, d)` for an integer field. -/
def jInt (j : Json) (k : String) (d : Int) : Int :=
  match j.lookupKey k with
  | some (Json.int n) => n
  | _ => d

/-- nlohmann `j.value(k, d)` for a boolean field. -/
def jBool (j : Json) (k : String) (d : Bool) : Bool :=
  match j.lookupKey k with
  | some (Json.bool b) => b
  | _ => d

/-- `Book::to_json`. -/
def Book.to_json (b : Book) : Json :=
  Json.obj [("Title", Json.str b.Title), ("Author", Json.str b.Author),
            ("ISBN", Json.str b.ISBN), ("IsAvailable", Json.bool b.IsAvailable)]

/-- `Book::from_json`. -/
def Book.from_json (j : Json) : Book :=
  { Title := jStr j "Title" "", Author := jStr j "Author" "",
    ISBN := jStr j "ISBN" "", IsAvailable := jBool j "IsAvailable" true }

/-- `Reader::to_json`. -/
def Reader.to_json (r : Reader) : Json :=
  Json.obj [("Id", Json.int r.Id), ("Name", Json.str r.Name),
            ("Email", Json.str r.Email)]

/-- `Reader::from_json`. -/
def Reader.from_json (j : Json) : Reader :=
  { Id := jInt j "Id" 0, Name := jStr j "Name" "", Email := jStr j "Email" "" }

/-- `Loan::to_json`: an absent `ReturnDate` is written as an explicit `null`
value, never an omitted key. -/
def Loan.to_json (l : Loan) : Json :=
  Json.obj [("BookISBN", Json.str l.BookISBN), ("ReaderId", Json.int l.ReaderId),
            ("LoanDate", Json.str l.LoanDate),
            ("ReturnDate", match l.ReturnDate with
                           | some s => Json.str s
                           | none => Json.null)]

/-- `Loan::from_json`: `ReturnDate` is set exactly when the stored value is a
(non-null) string, which is the only non-null value the program ever writes. -/
def Loan.from_json (j : Json) : Loan :=
  { BookISBN := jStr j "BookISBN" "", ReaderId := jInt j "ReaderId" 0,
    LoanDate := jStr j "LoanDate" "",
    ReturnDate := match j.lookupKey "ReturnDate" with
                  | some (Json.str s) => some s
                  | _ => none }

/-- The books array document `LibraryManager::Save` writes. -/
def SaveBooks (st : LibraryManager) : List Json := st.Books.map Book.to_json

/-- The readers array document `LibraryManager::Save` writes. -/
def SaveReaders (st : LibraryManager) : List Json := st.Readers.map Reader.to_json

/-- The loans array document `LibraryManager::Save` writes. -/
def SaveLoans (st : LibraryManager) : List Json := st.Loans.map Loan.to_json

/-- Outcome of opening and parsing one persisted file: the file is missing
(`if (f)` is false), or it parses to an array document with the given
elements, or reading it throws a parse exception. -/
inductive FileRead where
  | missing : FileRead
  | ok : List Json → FileRead
  | corrupt : FileRead

/-- `LibraryManager::Load`: the three collections are cleared first; the
three files are then read in order inside a single `try` block whose
`catch (...)` merely ignores the exception, so a parse error abandons the
remaining reads but keeps whatever the earlier reads already loaded. -/
def Load (f1 f2 f3 : FileRead) : LibraryManager :=
  match f1 with
  | FileRead.corrupt => ⟨[], [], []⟩
  | _ =>
    let books := match f1 with | FileRead.ok xs => xs.map Book.from_json | _ => []
    match f2 with
    | FileRead.corrupt => ⟨books, [], []⟩
    | _ =>
      let readers := match f2 with | FileRead.ok xs => xs.map Reader.from_json | _ => []
      match f3 with
      | FileRead.corrupt => ⟨books, readers, []⟩
      | _ => ⟨books, readers,
              match f3 with | FileRead.ok xs => xs.map Loan.from_json | _ => []⟩

/-- "Has an active loan for this ISBN": some loan in `Loans` has this
`BookISBN` and an absent `ReturnDate`. -/
def hasActiveLoan (st : LibraryManager) (isbn : String) : Bool :=
  st.Loans.any (fun l => l.BookISBN == isbn && l.ReturnDate.isNone)

/-- ISBN-uniqueness of a book collection (the invariant `AddBook` enforces). -/
def uniqISBN (bs : List Book) : Prop := (bs.map (fun b => b.ISBN)).Nodup

instance (bs : List Book) : Decidable (uniqISBN bs) :=
  List.nodupDecidable _

/-! Concrete states used to exercise the operations. -/

/-- The state a fresh `LibraryManager` starts from. -/
def emptyState : LibraryManager := ⟨[], [], []⟩

/-- Trace: add the book `111`. -/
def c1s1 : LibraryManager := (AddBook emptyState ⟨"Dune", "Herbert", "111", true⟩).2

/-- Trace: add reader `1`. -/
def c1s2 : LibraryManager := (AddReader c1s1 ⟨1, "Paul", "p@x"⟩).2

/-- Trace: issue book `111` to reader `1`. -/
def c1s3 : LibraryManager := (IssueLoan c1s2 "t1" "111" 1).2

/-- Trace: remove reader `1` while their loan is still active. -/
def c1s4 : LibraryManager := (RemoveReader c1s3 1).2

/-- Books document with a single entry, for the partial-load scenario. -/
def c2Books : List Json := [Book.to_json ⟨"Dune", "Herbert", "111", true⟩]

/-- Readers document with a single entry, for the partial-load scenario. -/
def c2Readers : List Json := [Reader.to_json ⟨1, "Paul", "p@x"⟩]

/-- Trace: add a reader with the Id `NextReaderId` assigns (the menu's flow). -/
def c3s1 : LibraryManager := (AddReader emptyState ⟨NextReaderId emptyState, "A", "a@x"⟩).2

/-- Trace: add a second reader the same way; it gets Id `2`. -/
def c3s2 : LibraryManager := (AddReader c3s1 ⟨NextReaderId c3s1, "B", "b@x"⟩).2

/-- Trace: remove the reader with Id `2` again. -/
def c3s3 : LibraryManager := (RemoveReader c3s2 2).2

/-- One book and one registered reader, nothing on loan. -/
def c4s0 : LibraryManager := ⟨[⟨"Dune", "Herbert", "111", true⟩], [⟨1, "Paul", "p@x"⟩], []⟩

/-- After one full issue/return cycle of book `111` by reader `1`. -/
def c4s1 : LibraryManager := (ReturnBook (IssueLoan c4s0 "t1" "111" 1).2 "t2" "111" 1).2

/-- Second cycle: issue again. -/
def c4s2 : LibraryManager := (IssueLoan c4s1 "t3" "111" 1).2

/-- Second cycle: return again. -/
def c4s3 : LibraryManager := (ReturnBook c4s2 "t4" "111" 1).2

/-- A book whose `IsAvailable` flag is already `false` when handed to `AddBook`. -/
def c5book : Book := ⟨"Ghost", "Anon", "222", false⟩

/-- First of two book entries sharing ISBN `999`. -/
def bA : Book := ⟨"First", "X", "999", true⟩

/-- Second of two book entries sharing ISBN `999`; starts unavailable. -/
def bB : Book := ⟨"Second", "X", "999", false⟩

/-- A books document holding two entries with the same ISBN. -/
def c10doc : List Json := [Book.to_json bA, Book.to_json bB]

/-- The state `Load` builds from the duplicate-ISBN books document (plus one
reader so that loans can be issued). -/
def c10st : LibraryManager :=
  Load (FileRead.ok c10doc) (FileRead.ok [Reader.to_json ⟨1, "R", "r@x"⟩]) (FileRead.ok [])

/-- A state used to instantiate the round-trip theorem: one returned loan,
one active loan, one book, one reader. -/
def c9st : LibraryManager :=
  ⟨[⟨"Dune", "Herbert", "111", false⟩], [⟨1, "Paul", "p@x"⟩],
   [⟨"111", 1, "t1", some "t2"⟩, ⟨"111", 1, "t3", none⟩]⟩

/-- An active loan, for instantiating the null-persistence clause. -/
def c9loan : Loan := ⟨"111", 1, "t1", none⟩

end LibraryApp

namespace LibraryApp

/-! Helper lemmas about the list operations the embedding uses. -/

/-- The running-maximum fold in `NextReaderId` dominates its seed and every
element of the list. -/
theorem foldl_max_ge (l : List Reader) (acc : Int) :
    acc ≤ l.foldl (fun m r => if r.Id > m then r.Id else m) acc ∧
    ∀ r ∈ l, r.Id ≤ l.foldl (fun m r => if r.Id > m then r.Id else m) acc := by
  induction l generalizing acc with
  | nil => simp
  | cons a l ih =>
    simp only [List.foldl_cons]
    constructor
    · calc acc ≤ (if a.Id > acc then a.Id else acc) := by split <;> omega
        _ ≤ _ := (ih _).1
    · intro r hr
      rcases List.mem_cons.mp hr with h | h
      · subst h
        calc r.Id ≤ (if r.Id > acc then r.Id else acc) := by split <;> omega
          _ ≤ _ := (ih _).1
      · exact (ih _).2 r h

/-- Updating the first `p`-element of a list with `f` bumps the number of
`q`-elements by one, provided a `p`-element exists and `f` turns a
(necessarily non-`q`) `p`-element into a `q`-element. -/
theorem length_filter_updFirst (p q : α → Bool) (f : α → α) (xs : List α)
    (hpq : ∀ x, p x = true → q x = false ∧ q (f x) = true)
    (hex : ∃ x ∈ xs, p x = true) :
    (List.filter q (updFirst p f xs)).length = (List.filter q xs).length + 1 := by
  induction xs with
  | nil => obtain ⟨x, hx, -⟩ := hex; cases hx
  | cons a xs ih =>
    by_cases hpa : p a = true
    · obtain ⟨hqa, hqfa⟩ := hpq a hpa
      simp [updFirst, hpa, List.filter_cons, hqa, hqfa]
    · have hpa' : p a = false := by simpa using hpa
      have hex' : ∃ x ∈ xs, p x = true := by
        obtain ⟨x, hx, hpx⟩ := hex
        rcases List.mem_cons.mp hx with h | h
        · subst h; exact absurd hpx hpa
        · exact ⟨x, h, hpx⟩
      by_cases hqa : q a = true
      · simp [updFirst, hpa', List.filter_cons, hqa, ih hex']
      · simp [updFirst, hpa', List.filter_cons, hqa, ih hex']

/-- `markFirstBook` keeps the existence of a book with the given ISBN. -/
theorem exists_isbn_markFirstBook (isbn : String) (v : Bool) (bs : List Book)
    (hex : ∃ b ∈ bs, (b.ISBN == isbn) = true) :
    ∃ b ∈ markFirstBook isbn v bs, (b.ISBN == isbn) = true := by
  induction bs with
  | nil => obtain ⟨b, hb, -⟩ := hex; cases hb
  | cons a bs ih =>
    by_cases hpa : (a.ISBN == isbn) = true
    · exact ⟨{ a with IsAvailable := v }, by simp [markFirstBook, updFirst, hpa], by simpa using hpa⟩
    · have hpa' : (a.ISBN == isbn) = false := by simpa using hpa
      have hex' : ∃ b ∈ bs, (b.ISBN == isbn) = true := by
        obtain ⟨b, hb, hpb⟩ := hex
        rcases List.mem_cons.mp hb with h | h
        · subst h; exact absurd hpb hpa
        · exact ⟨b, h, hpb⟩
      obtain ⟨b, hb, hpb⟩ := ih hex'
      exact ⟨b, by simp [markFirstBook, updFirst, hpa', List.mem_cons]; right; simpa [markFirstBook] using hb, hpb⟩

/-- After `markFirstBook isbn v`, the first book with that ISBN exists and
carries availability `v` (given a book with that ISBN existed). -/
theorem find_markFirstBook (isbn : String) (v : Bool) (bs : List Book)
    (hex : ∃ b ∈ bs, (b.ISBN == isbn) = true) :
    ∃ b', (markFirstBook isbn v bs).find? (fun x => x.ISBN == isbn) = some b'
          ∧ b'.IsAvailable = v := by
  induction bs with
  | nil => obtain ⟨b, hb, -⟩ := hex; cases hb
  | cons a bs ih =>
    by_cases hpa : (a.ISBN == isbn) = true
    · refine ⟨{ a with IsAvailable := v }, ?_, rfl⟩
      simp [markFirstBook, updFirst, hpa, List.find?_cons]
    · have hpa' : (a.ISBN == isbn) = false := by simpa using hpa
      have hex' : ∃ b ∈ bs, (b.ISBN == isbn) = true := by
        obtain ⟨b, hb, hpb⟩ := hex
        rcases List.mem_cons.mp hb with h | h
        · subst h; exact absurd hpb hpa
        · exact ⟨b, h, hpb⟩
      obtain ⟨b', hfind, hv⟩ := ih hex'
      refine ⟨b', ?_, hv⟩
      simpa [markFirstBook, updFirst, hpa', List.find?_cons] using hfind

/-- `Book::from_json` inverts `Book::to_json` on whole documents. -/
theorem books_round (bs : List Book) : (bs.map Book.to_json).map Book.from_json = bs := by
  induction bs with
  | nil => rfl
  | cons b bs ih => simp only [List.map_cons]; rw [ih]; rfl

/-- `Reader::from_json` inverts `Reader::to_json` on whole documents. -/
theorem readers_round (rs : List Reader) : (rs.map Reader.to_json).map Reader.from_json = rs := by
  induction rs with
  | nil => rfl
  | cons r rs ih => simp only [List.map_cons]; rw [ih]; rfl

/-- `Loan::from_json` inverts `Loan::to_json` on one loan, whether or not the
loan is still active. -/
theorem loan_round_elem (l : Loan) : Loan.from_json (Loan.to_json l) = l := by
  cases l with
  | mk a b c rd => cases rd <;> rfl

/-- `Loan::from_json` inverts `Loan::to_json` on whole documents. -/
theorem loans_round (ls : List Loan) : (ls.map Loan.to_json).map Loan.from_json = ls := by
  induction ls with
  | nil => rfl
  | cons l ls ih => simp only [List.map_cons]; rw [ih, loan_round_elem]

end LibraryApp

namespace LibraryApp

/-! The claims. -/

/-- Claim C1 (code bug): the IsAvailable-equals-no-active-loan invariant is
not preserved by the reachable-state machine: after adding book `111`,
registering reader `1`, issuing the book to the reader (all succeeding) and
then removing the reader, the reader's active loan is erased but the book is
left with `IsAvailable = false`, so the flag is not the negation of "has an
active loan for this ISBN". -/
theorem C1_isAvailable_desync :
    (AddBook emptyState ⟨"Dune", "Herbert", "111", true⟩).1 = true ∧
    (AddReader c1s1 ⟨1, "Paul", "p@x"⟩).1 = true ∧
    (IssueLoan c1s2 "t1" "111" 1).1 = true ∧
    (RemoveReader c1s3 1).1 = true ∧
    (FindBook c1s4 "111").map (fun b => b.IsAvailable) = some false ∧
    hasActiveLoan c1s4 "111" = false := by decide

/-- Claim C2 (code bug): when only the loans file is corrupt, `Load` keeps
the books and readers it already parsed instead of resetting all three
collections to empty: the resulting state is partially populated. -/
theorem C2_partial_load :
    Load (FileRead.ok c2Books) (FileRead.ok c2Readers) FileRead.corrupt
      = ⟨[⟨"Dune", "Herbert", "111", true⟩], [⟨1, "Paul", "p@x"⟩], []⟩ ∧
    (Load (FileRead.ok c2Books) (FileRead.ok c2Readers) FileRead.corrupt).Books ≠ [] := by
  decide

/-- Claim C3, counterexample: assigning Ids via `NextReaderId` gives readers
`1` and `2`; after removing reader `2`, `NextReaderId` returns `2` again —
an Id previously assigned to a reader who has since been removed. -/
theorem C3_id_reuse_counterexample :
    NextReaderId emptyState = 1 ∧
    NextReaderId c3s1 = 2 ∧
    c3s2.Readers.any (fun r => r.Id == 2) = true ∧
    (RemoveReader c3s2 2).1 = true ∧
    c3s3.Readers.any (fun r => r.Id == 2) = false ∧
    NextReaderId c3s3 = 2 := by decide

/-- Claim C3, amended: `NextReaderId` always exceeds every Id currently in
the reader collection (it is `1 + max`, so Ids below the current maximum are
never produced), but an Id freed by removing the highest-Id reader can be
assigned again. -/
theorem C3_nextReaderId_gt_all (st : LibraryManager) (r : Reader)
    (h : r ∈ st.Readers) : r.Id < NextReaderId st := by
  have := (foldl_max_ge st.Readers 0).2 r h
  unfold NextReaderId
  omega

/-- Witness for the amended C3 theorem at a concrete state. -/
theorem C3_nextReaderId_gt_all_witness :
    (⟨1, "Paul", "p@x"⟩ : Reader).Id < NextReaderId c4s0 :=
  C3_nextReaderId_gt_all c4s0 ⟨1, "Paul", "p@x"⟩ (by decide)

/-- Claim C4, counterexample: in the reachable state after one completed
issue/return cycle of book `111` by reader `1`, `IssueLoan` succeeds and the
immediately following `ReturnBook` succeeds, but two loan records for that
ISBN have `ReturnDate` set — not exactly one. -/
theorem C4_two_returned_loans_counterexample :
    (IssueLoan c4s1 "t3" "111" 1).1 = true ∧
    (ReturnBook c4s2 "t4" "111" 1).1 = true ∧
    (c4s3.Loans.filter (fun l => l.BookISBN == "111" && l.ReturnDate.isSome)).length = 2 ∧
    (c4s3.Loans.filter (fun l => l.BookISBN == "111" && l.ReturnDate.isSome)).length ≠ 1 := by
  decide

/-- Claim C5, counterexample: `AddBook` appends the book exactly as given
rather than forcing `IsAvailable = true`: adding a fresh-ISBN book whose
flag is `false` succeeds and the appended entry keeps `IsAvailable = false`. -/
theorem C5_flag_preserved_counterexample :
    (AddBook emptyState c5book).1 = true ∧
    (AddBook emptyState c5book).2.Books.map (fun x => x.IsAvailable) = [false] := by
  decide

/-- Claim C5, amended: `AddBook` fails and leaves the entire state unchanged
exactly when a book with the same ISBN already exists; otherwise it succeeds
and appends the book unchanged (with whatever `IsAvailable` flag it carries —
`true` for the default-constructed books the menu passes in). -/
theorem C5_addBook_spec (st : LibraryManager) (b : Book) :
    ((AddBook st b).1 = false ↔ ∃ bk ∈ st.Books, (bk.ISBN == b.ISBN) = true) ∧
    ((AddBook st b).1 = false → (AddBook st b).2 = st) ∧
    ((AddBook st b).1 = true → (AddBook st b).2 = { st with Books := st.Books ++ [b] }) := by
  cases hfb : FindBook st b.ISBN with
  | none =>
    have hfb' : st.Books.find? (fun x => x.ISBN == b.ISBN) = none := hfb
    refine ⟨?_, ?_, ?_⟩
    · constructor
      · intro h; simp [AddBook, hfb] at h
      · rintro ⟨bk, hmem, hbk⟩
        exact absurd hbk (List.find?_eq_none.mp hfb' bk hmem)
    · intro h; simp [AddBook, hfb] at h
    · intro _; simp [AddBook, hfb]
  | some bk =>
    have hfb' : st.Books.find? (fun x => x.ISBN == b.ISBN) = some bk := hfb
    have hmem : bk ∈ st.Books := List.mem_of_find?_eq_some hfb'
    have hbk : (bk.ISBN == b.ISBN) = true := by
      have h2 := List.find?_some hfb'
      simpa using h2
    refine ⟨?_, ?_, ?_⟩
    · exact iff_of_true (by simp [AddBook, hfb]) ⟨bk, hmem, hbk⟩
    · intro _; simp [AddBook, hfb]
    · intro h; simp [AddBook, hfb] at h

/-- Witness for the amended C5 theorem: both the duplicate-rejection branch
and the append branch, at concrete inputs. -/
theorem C5_addBook_spec_witness :
    (AddBook c4s0 ⟨"Dune", "Herbert", "111", true⟩).2 = c4s0 ∧
    (AddBook c4s0 c5book).2 = { c4s0 with Books := c4s0.Books ++ [c5book] } :=
  ⟨(C5_addBook_spec c4s0 ⟨"Dune", "Herbert", "111", true⟩).2.1 (by decide),
   (C5_addBook_spec c4s0 c5book).2.2 (by decide)⟩

end LibraryApp

namespace LibraryApp

/-- Claim C6: `IssueLoan` fails exactly when no book with the ISBN exists,
or the (first) book with that ISBN is unavailable — regardless of reader
validity — or no reader with the Id exists; on success it appends one new
loan carrying the given ISBN, reader Id, the clock's current time as
`LoanDate` and an absent `ReturnDate`, and flips the found book's
`IsAvailable` to `false`, touching nothing else. -/
theorem C6_issueLoan_spec (st : LibraryManager) (now isbn : String) (rid : Int) :
    ((IssueLoan st now isbn rid).1 = false ↔
      FindBook st isbn = none
      ∨ (∃ b, FindBook st isbn = some b ∧ b.IsAvailable = false)
      ∨ FindReader st rid = none) ∧
    ((IssueLoan st now isbn rid).1 = true →
      (IssueLoan st now isbn rid).2.Loans
          = st.Loans ++ [{ BookISBN := isbn, ReaderId := rid, LoanDate := now,
                           ReturnDate := none }] ∧
      (IssueLoan st now isbn rid).2.Books = markFirstBook isbn false st.Books ∧
      (IssueLoan st now isbn rid).2.Readers = st.Readers ∧
      (FindBook (IssueLoan st now isbn rid).2 isbn).map (fun b => b.IsAvailable)
          = some false) := by
  cases hfb : FindBook st isbn with
  | none =>
    refine ⟨iff_of_true (by simp [IssueLoan, hfb]) (Or.inl rfl), ?_⟩
    intro h; simp [IssueLoan, hfb] at h
  | some b =>
    cases hav : b.IsAvailable with
    | false =>
      refine ⟨iff_of_true (by simp [IssueLoan, hfb, hav]) (Or.inr (Or.inl ⟨b, rfl, hav⟩)), ?_⟩
      intro h; simp [IssueLoan, hfb, hav] at h
    | true =>
      cases hfr : FindReader st rid with
      | none =>
        refine ⟨iff_of_true (by simp [IssueLoan, hfb, hav, hfr]) (Or.inr (Or.inr rfl)), ?_⟩
        intro h; simp [IssueLoan, hfb, hav, hfr] at h
      | some r =>
        constructor
        · constructor
          · intro h; simp [IssueLoan, hfb, hav, hfr] at h
          · rintro (h | ⟨b', hb', hbav⟩ | h)
            · cases h
            · cases hb'; rw [hav] at hbav; cases hbav
            · cases h
        · intro _
          have hexb : ∃ x ∈ st.Books, (x.ISBN == isbn) = true := by
            have hfb' : st.Books.find? (fun x => x.ISBN == isbn) = some b := hfb
            refine ⟨b, List.mem_of_find?_eq_some hfb', ?_⟩
            have h2 := List.find?_some hfb'
            simpa using h2
          obtain ⟨b', hfind, hbv⟩ := find_markFirstBook isbn false st.Books hexb
          have hBooks : (IssueLoan st now isbn rid).2.Books
              = markFirstBook isbn false st.Books := by
            simp [IssueLoan, hfb, hav, hfr]
          refine ⟨by simp [IssueLoan, hfb, hav, hfr], hBooks,
                  by simp [IssueLoan, hfb, hav, hfr], ?_⟩
          simp only [FindBook, hBooks]
          rw [hfind]
          simp [hbv]

/-- Witness for C6's success clause at a concrete input. -/
theorem C6_issueLoan_spec_witness :
    (IssueLoan c4s0 "t1" "111" 1).2.Loans
        = c4s0.Loans ++ [{ BookISBN := "111", ReaderId := 1, LoanDate := "t1",
                           ReturnDate := none }] :=
  ((C6_issueLoan_spec c4s0 "t1" "111" 1).2 (by decide)).1

/-- Claim C7: `RemoveReader` fails (and changes nothing) exactly when no
reader with the Id exists; otherwise it keeps exactly the loans that are not
"this reader's and still active" — so the reader's returned loans survive —
and erases the reader, leaving the books untouched. -/
theorem C7_removeReader_spec (st : LibraryManager) (id : Int) :
    ((RemoveReader st id).1 = false ↔ ∀ r ∈ st.Readers, (r.Id == id) = false) ∧
    ((RemoveReader st id).1 = false → (RemoveReader st id).2 = st) ∧
    ((RemoveReader st id).1 = true →
      (RemoveReader st id).2.Loans
          = st.Loans.filter (fun l => !(l.ReaderId == id && l.ReturnDate.isNone)) ∧
      (RemoveReader st id).2.Readers = st.Readers.eraseP (fun r => r.Id == id) ∧
      (RemoveReader st id).2.Books = st.Books) := by
  cases hfr : FindReader st id with
  | none =>
    have hfr' : st.Readers.find? (fun r => r.Id == id) = none := hfr
    refine ⟨?_, ?_, ?_⟩
    · refine iff_of_true (by simp [RemoveReader, hfr]) ?_
      intro r hr
      have h2 := List.find?_eq_none.mp hfr' r hr
      simpa using h2
    · intro _; simp [RemoveReader, hfr]
    · intro h; simp [RemoveReader, hfr] at h
  | some r0 =>
    have hfr' : st.Readers.find? (fun r => r.Id == id) = some r0 := hfr
    have hmem : r0 ∈ st.Readers := List.mem_of_find?_eq_some hfr'
    have h2 := List.find?_some hfr'
    have hp : (r0.Id == id) = true := by simpa using h2
    refine ⟨?_, ?_, ?_⟩
    · constructor
      · intro h; simp [RemoveReader, hfr] at h
      · intro hall
        rw [hall r0 hmem] at hp; cases hp
    · intro h; simp [RemoveReader, hfr] at h
    · intro _
      exact ⟨by simp [RemoveReader, hfr], by simp [RemoveReader, hfr],
             by simp [RemoveReader, hfr]⟩

/-- Witness for C7's success clause at a concrete input (the reader has one
active and one returned loan; only the returned one survives). -/
theorem C7_removeReader_spec_witness :
    (RemoveReader c4s2 1).2.Loans
        = c4s2.Loans.filter (fun l => !(l.ReaderId == 1 && l.ReturnDate.isNone)) :=
  ((C7_removeReader_spec c4s2 1).2.2 (by decide)).1

/-- Claim C8: `RemoveBook` fails exactly when no book with the ISBN exists or
the (first) book with that ISBN is unavailable; on success it erases exactly
one entry from `Books` — the first match — and leaves the loans (and
readers) untouched. -/
theorem C8_removeBook_spec (st : LibraryManager) (isbn : String) :
    ((RemoveBook st isbn).1 = false ↔
      (∀ b ∈ st.Books, (b.ISBN == isbn) = false)
      ∨ (∃ b, FindBook st isbn = some b ∧ b.IsAvailable = false)) ∧
    ((RemoveBook st isbn).1 = false → (RemoveBook st isbn).2 = st) ∧
    ((RemoveBook st isbn).1 = true →
      (RemoveBook st isbn).2.Books.length + 1 = st.Books.length ∧
      (RemoveBook st isbn).2.Books = st.Books.eraseP (fun x => x.ISBN == isbn) ∧
      (RemoveBook st isbn).2.Loans = st.Loans ∧
      (RemoveBook st isbn).2.Readers = st.Readers) := by
  cases hfb : FindBook st isbn with
  | none =>
    have hfb' : st.Books.find? (fun x => x.ISBN == isbn) = none := hfb
    refine ⟨?_, ?_, ?_⟩
    · refine iff_of_true (by simp [RemoveBook, hfb]) (Or.inl ?_)
      intro b hb
      have h2 := List.find?_eq_none.mp hfb' b hb
      simpa using h2
    · intro _; simp [RemoveBook, hfb]
    · intro h; simp [RemoveBook, hfb] at h
  | some b =>
    have hfb' : st.Books.find? (fun x => x.ISBN == isbn) = some b := hfb
    have hmem : b ∈ st.Books := List.mem_of_find?_eq_some hfb'
    have h2 := List.find?_some hfb'
    have hp : (b.ISBN == isbn) = true := by simpa using h2
    cases hav : b.IsAvailable with
    | false =>
      refine ⟨?_, ?_, ?_⟩
      · exact iff_of_true (by simp [RemoveBook, hfb, hav]) (Or.inr ⟨b, rfl, hav⟩)
      · intro _; simp [RemoveBook, hfb, hav]
      · intro h; simp [RemoveBook, hfb, hav] at h
    | true =>
      refine ⟨?_, ?_, ?_⟩
      · constructor
        · intro h; simp [RemoveBook, hfb, hav] at h
        · rintro (hall | ⟨b', hb', hbav⟩)
          · rw [hall b hmem] at hp; cases hp
          · cases hb'; rw [hav] at hbav; cases hbav
      · intro h; simp [RemoveBook, hfb, hav] at h
      · intro _
        have hbooks : (RemoveBook st isbn).2.Books
            = st.Books.eraseP (fun x => x.ISBN == isbn) := by
          simp [RemoveBook, hfb, hav]
        have hlen : (st.Books.eraseP (fun x => x.ISBN == isbn)).length
            = st.Books.length - 1 := List.length_eraseP_of_mem hmem hp
        have hpos : 0 < st.Books.length := List.length_pos_of_mem hmem
        refine ⟨?_, hbooks, by simp [RemoveBook, hfb, hav], by simp [RemoveBook, hfb, hav]⟩
        rw [hbooks, hlen]
        omega

/-- Witness for C8's success clause at a concrete input. -/
theorem C8_removeBook_spec_witness :
    (RemoveBook c4s0 "111").2.Books.length + 1 = c4s0.Books.length :=
  ((C8_removeBook_spec c4s0 "111").2.2 (by decide)).1

end LibraryApp

namespace LibraryApp

/-- Claim C4, amended: whenever `IssueLoan` succeeds, the immediate
`ReturnBook` for the same keys succeeds, leaves the (first) book with that
ISBN available again, and increases the number of loan records for that ISBN
with `ReturnDate` set by exactly one (earlier returned loans for the same
ISBN are retained, so "exactly one returned record in total" need not hold). -/
theorem C4_issue_then_return (st : LibraryManager) (now1 now2 isbn : String) (rid : Int)
    (h : (IssueLoan st now1 isbn rid).1 = true) :
    (ReturnBook (IssueLoan st now1 isbn rid).2 now2 isbn rid).1 = true ∧
    (FindBook (ReturnBook (IssueLoan st now1 isbn rid).2 now2 isbn rid).2 isbn).map
        (fun b => b.IsAvailable) = some true ∧
    ((ReturnBook (IssueLoan st now1 isbn rid).2 now2 isbn rid).2.Loans.filter
        (fun l => l.BookISBN == isbn && l.ReturnDate.isSome)).length
      = (st.Loans.filter (fun l => l.BookISBN == isbn && l.ReturnDate.isSome)).length
          + 1 := by
  cases hfb : FindBook st isbn with
  | none => simp [IssueLoan, hfb] at h
  | some b =>
    cases hav : b.IsAvailable with
    | false => simp [IssueLoan, hfb, hav] at h
    | true =>
      cases hfr : FindReader st rid with
      | none => simp [IssueLoan, hfb, hav, hfr] at h
      | some r =>
        have hLoans1 : (IssueLoan st now1 isbn rid).2.Loans
            = st.Loans ++ [⟨isbn, rid, now1, none⟩] := by
          simp [IssueLoan, hfb, hav, hfr]
        have hBooks1 : (IssueLoan st now1 isbn rid).2.Books
            = markFirstBook isbn false st.Books := by
          simp [IssueLoan, hfb, hav, hfr]
        have hex : ∃ x ∈ (IssueLoan st now1 isbn rid).2.Loans,
            (x.BookISBN == isbn && x.ReaderId == rid && x.ReturnDate.isNone) = true := by
          rw [hLoans1]
          exact ⟨⟨isbn, rid, now1, none⟩, by simp, by simp⟩
        have hsome : ((IssueLoan st now1 isbn rid).2.Loans.find?
            (fun l => l.BookISBN == isbn && l.ReaderId == rid && l.ReturnDate.isNone)).isSome
              = true :=
          List.find?_isSome.mpr hex
        obtain ⟨l0, hfind⟩ := Option.isSome_iff_exists.mp hsome
        have hexb : ∃ x ∈ st.Books, (x.ISBN == isbn) = true := by
          have hfb' : st.Books.find? (fun x => x.ISBN == isbn) = some b := hfb
          refine ⟨b, List.mem_of_find?_eq_some hfb', ?_⟩
          have h2 := List.find?_some hfb'
          simpa using h2
        have hexb1 : ∃ x ∈ markFirstBook isbn false st.Books, (x.ISBN == isbn) = true :=
          exists_isbn_markFirstBook isbn false st.Books hexb
        obtain ⟨b', hfind', hbv⟩ :=
          find_markFirstBook isbn true (markFirstBook isbn false st.Books) hexb1
        have hbooks2 : (ReturnBook (IssueLoan st now1 isbn rid).2 now2 isbn rid).2.Books
            = markFirstBook isbn true (markFirstBook isbn false st.Books) := by
          simp [ReturnBook, hfind, hBooks1]
        have hpq : ∀ x : Loan,
            (x.BookISBN == isbn && x.ReaderId == rid && x.ReturnDate.isNone) = true →
            ((x.BookISBN == isbn && x.ReturnDate.isSome) = false ∧
             (({ x with ReturnDate := some now2 } : Loan).BookISBN == isbn
               && ({ x with ReturnDate := some now2 } : Loan).ReturnDate.isSome) = true) := by
          intro x hx
          simp only [Bool.and_eq_true] at hx
          obtain ⟨⟨hbi, _⟩, hrd⟩ := hx
          have hxr : x.ReturnDate = none := Option.isNone_iff_eq_none.mp hrd
          exact ⟨by simp [hbi, hxr], by simp [hbi]⟩
        have hcount := length_filter_updFirst
          (fun l => l.BookISBN == isbn && l.ReaderId == rid && l.ReturnDate.isNone)
          (fun l => l.BookISBN == isbn && l.ReturnDate.isSome)
          (fun l => { l with ReturnDate := some now2 })
          ((IssueLoan st now1 isbn rid).2.Loans) hpq hex
        have hLoans2 : (ReturnBook (IssueLoan st now1 isbn rid).2 now2 isbn rid).2.Loans
            = updFirst (fun l => l.BookISBN == isbn && l.ReaderId == rid && l.ReturnDate.isNone)
                (fun l => { l with ReturnDate := some now2 })
                (IssueLoan st now1 isbn rid).2.Loans := by
          simp [ReturnBook, hfind]
        have hcount2 : ((IssueLoan st now1 isbn rid).2.Loans.filter
            (fun l => l.BookISBN == isbn && l.ReturnDate.isSome)).length
            = (st.Loans.filter (fun l => l.BookISBN == isbn && l.ReturnDate.isSome)).length := by
          rw [hLoans1, List.filter_append]
          simp
        refine ⟨by simp [ReturnBook, hfind], ?_, ?_⟩
        · simp only [FindBook, hbooks2]
          rw [hfind']
          simp [hbv]
        · rw [hLoans2, hcount, hcount2]

/-- Witness for the amended C4 theorem at a concrete input. -/
theorem C4_issue_then_return_witness :
    (ReturnBook (IssueLoan c4s0 "t1" "111" 1).2 "t2" "111" 1).1 = true :=
  (C4_issue_then_return c4s0 "t1" "t2" "111" 1 (by decide)).1

end LibraryApp

namespace LibraryApp

/-- Claim C9: `Save` followed by `Load` against the same three destinations
reproduces the books, readers and loans exactly (in particular every field
value and each loan's active/returned status), and an absent `ReturnDate` is
persisted as an explicit `null` value under the `ReturnDate` key, never as an
omitted key. -/
theorem C9_save_load_round_trip (st : LibraryManager) :
    Load (FileRead.ok (SaveBooks st)) (FileRead.ok (SaveReaders st))
        (FileRead.ok (SaveLoans st)) = st ∧
    ∀ l : Loan, l.ReturnDate = none →
      (Loan.to_json l).lookupKey "ReturnDate" = some Json.null := by
  constructor
  · cases st with
    | mk bs rs ls =>
      show LibraryManager.mk ((bs.map Book.to_json).map Book.from_json)
            ((rs.map Reader.to_json).map Reader.from_json)
            ((ls.map Loan.to_json).map Loan.from_json)
          = LibraryManager.mk bs rs ls
      rw [books_round, readers_round, loans_round]
  · intro l hl
    cases l with
    | mk a b c rd =>
      cases rd with
      | none => rfl
      | some s => simp at hl

/-- Witness for C9 at a concrete state holding one returned and one active
loan, and at a concrete active loan. -/
theorem C9_save_load_round_trip_witness :
    Load (FileRead.ok (SaveBooks c9st)) (FileRead.ok (SaveReaders c9st))
        (FileRead.ok (SaveLoans c9st)) = c9st ∧
    (Loan.to_json c9loan).lookupKey "ReturnDate" = some Json.null :=
  ⟨(C9_save_load_round_trip c9st).1,
   (C9_save_load_round_trip c9st).2 c9loan rfl⟩

/-- Claim C10: `Load` checks no ISBN uniqueness — a books document with two
distinct entries sharing ISBN `999` loads into a `Books` collection holding
both — while `AddBook` preserves ISBN uniqueness, so no `AddBook`-only run
can create such a state; and in that state `RemoveBook`, `IssueLoan` and
`ReturnBook`'s availability update all act only on the first matching entry
in insertion order. -/
theorem C10_load_duplicate_isbn :
    c10st.Books = [bA, bB] ∧ bA ≠ bB ∧ bA.ISBN = bB.ISBN ∧
    ¬ uniqISBN c10st.Books ∧
    (∀ (st : LibraryManager) (b : Book),
      uniqISBN st.Books → uniqISBN ((AddBook st b).2.Books)) ∧
    (RemoveBook c10st "999").1 = true ∧
    (RemoveBook c10st "999").2.Books = [bB] ∧
    (IssueLoan c10st "t1" "999" 1).1 = true ∧
    (IssueLoan c10st "t1" "999" 1).2.Books.map (fun b => b.IsAvailable)
        = [false, false] ∧
    (ReturnBook (IssueLoan c10st "t1" "999" 1).2 "t2" "999" 1).1 = true ∧
    (ReturnBook (IssueLoan c10st "t1" "999" 1).2 "t2" "999" 1).2.Books.map
        (fun b => b.IsAvailable) = [true, false] := by
  refine ⟨by decide, by decide, by decide, by decide, ?_, by decide, by decide,
          by decide, by decide, by decide, by decide⟩
  intro st b hu
  cases hfb : FindBook st b.ISBN with
  | some bk => simpa [AddBook, hfb] using hu
  | none =>
    have hfb' : st.Books.find? (fun x => x.ISBN == b.ISBN) = none := hfb
    have hnb : ∀ x ∈ st.Books, (x.ISBN == b.ISBN) = false := by
      intro x hx
      have h2 := List.find?_eq_none.mp hfb' x hx
      simpa using h2
    have hbooks : (AddBook st b).2.Books = st.Books ++ [b] := by
      simp [AddBook, hfb]
    rw [uniqISBN, hbooks, List.map_append, List.nodup_append]
    refine ⟨hu, List.nodup_singleton _, ?_⟩
    intro a ha hb
    obtain ⟨x, hx, hax⟩ := List.mem_map.mp ha
    have hone : a = b.ISBN := by simpa using hb
    have := hnb x hx
    rw [hax, hone] at this
    simp at this

/-- Witness for C10's uniqueness-preservation clause at a concrete input. -/
theorem C10_load_duplicate_isbn_witness :
    uniqISBN ((AddBook emptyState c5book).2.Books) :=
  C10_load_duplicate_isbn.2.2.2.2.1 emptyState c5book (by decide)

end LibraryApp
